import Mathlib

/-!
Verification of the turn-execution orchestration core of a conversational
concierge service.

The development shallowly embeds the Python sources:

* `src/src/agents/dialogue_stages.py`               — `DialogueStage`
* `src/src/agents/stage_detector_agent.py`          — `StageDetectorAgent._parse_response`
* `src/src/services/responses_api/tools_registry.py`— `ResponsesToolsRegistry`
* `src/src/services/responses_api/orchestrator.py`  — `ResponsesOrchestrator.run_turn`

Python strings are Lean `String`s, Python dicts whose keys and values are
strings are association lists `List (String × String)` (insertion-ordered,
like Python dicts), and in-place dict mutation is rendered by returning the
mutated list to the caller.  Exceptions are rendered as explicit outcome
constructors.  The orchestration loop is driven by an explicit fuel argument
mirroring the `while iteration < max_iterations` counter.  String helpers
(`lower`, `strip`, `split`) are re-implemented over `List Char` so that every
definition evaluates by kernel reduction.
-/

/-! ### Python string primitives -/

/-- `str.lower()` restricted to the ASCII case mapping. -/
def pyLower (s : String) : String := String.mk (s.data.map Char.toLower)

/-- Drop leading and trailing whitespace from a character list. -/
def pyTrimList (cs : List Char) : List Char :=
  ((cs.dropWhile Char.isWhitespace).reverse.dropWhile Char.isWhitespace).reverse

/-- `str.strip()` with the default (whitespace) argument. -/
def pyTrim (s : String) : String := String.mk (pyTrimList s.data)

/-- Worker for `str.split()`: split on whitespace runs, discarding empties. -/
def wsSplit : List Char → List Char → List (List Char)
  | [], acc => if acc.isEmpty then [] else [acc.reverse]
  | c :: rest, acc =>
    if c.isWhitespace then
      (if acc.isEmpty then wsSplit rest [] else acc.reverse :: wsSplit rest [])
    else wsSplit rest (c :: acc)

/-- `str.split()` with no argument: whitespace-delimited tokens. -/
def pySplitWs (s : String) : List String := (wsSplit s.data []).map String.mk

/-- A word character in the sense of the regex class backslash-w, restricted
to the ASCII range (every dialogue-stage value is ASCII). -/
def isWordChar (c : Char) : Bool := c.isAlphanum || c == '_'

/-- After a prefix occurrence of a needle of length `needleLen` at the head of
`cs`, is the position just past the needle a word boundary? -/
def boundaryOk (needleLen : Nat) (cs : List Char) : Bool :=
  match cs.drop needleLen with
  | [] => true
  | d :: _ => !isWordChar d

/-- Scan of the haystack for a whole-word occurrence of `needle`, tracking
whether the previous character was a word character.  Because every
dialogue-stage value consists solely of word characters, `re.search`
of the pattern backslash-b ++ value ++ backslash-b succeeds exactly when the
value occurs not adjacent to word characters. -/
def wordSearchAux (needle : List Char) : Bool → List Char → Bool
  | _, [] => false
  | prevIsWord, c :: rest =>
      ((!prevIsWord) && needle.isPrefixOf (c :: rest) && boundaryOk needle.length (c :: rest))
      || wordSearchAux needle (isWordChar c) rest

/-- Whole-word regex search of a stage value inside a string. -/
def regex_word_search (needle hay : String) : Bool :=
  wordSearchAux needle.data false hay.data

/-- Contiguous-sublist test on character lists (Python `needle in hay`). -/
def listContainsSub (needle : List Char) : List Char → Bool
  | [] => needle.isEmpty
  | c :: rest => needle.isPrefixOf (c :: rest) || listContainsSub needle rest

/-- Python substring test `needle in hay`. -/
def contains_substr (needle hay : String) : Bool := listContainsSub needle.data hay.data

/-- The opening curly brace character (written by code point). -/
def lbrace : Char := Char.ofNat 123

/-- The closing curly brace character (written by code point). -/
def rbrace : Char := Char.ofNat 125

/-! ### `dialogue_stages.py` -/

/-- The `DialogueStage` enumeration. -/
inductive DialogueStage where
  | greeting
  | information_gathering
  | booking
  | booking_to_master
  | cancellation_request
  | reschedule
  | view_my_booking
deriving DecidableEq, Repr

/-- The string value of each enumeration member. -/
def DialogueStage.value : DialogueStage → String
  | .greeting => "greeting"
  | .information_gathering => "information_gathering"
  | .booking => "booking"
  | .booking_to_master => "booking_to_master"
  | .cancellation_request => "cancellation_request"
  | .reschedule => "reschedule"
  | .view_my_booking => "view_my_booking"

/-- Iteration order of the enumeration, as declared in the source. -/
def allStages : List DialogueStage :=
  [.greeting, .information_gathering, .booking, .booking_to_master,
   .cancellation_request, .reschedule, .view_my_booking]

/-- `valid_stages = [stage.value for stage in DialogueStage]`. -/
def valid_stages : List String := allStages.map DialogueStage.value

/-- Insert a string into a length-descending list (stable). -/
def insertByLenDesc (s : String) : List String → List String
  | [] => [s]
  | t :: ts => if t.length < s.length then s :: t :: ts else t :: insertByLenDesc s ts

/-- `sorted(l, key=len, reverse=True)`; the seven stage values have pairwise
distinct lengths, so any length-descending sort agrees with Python's. -/
def sortByLenDesc (l : List String) : List String := l.foldr insertByLenDesc []

/-- `sorted_stages = sorted(valid_stages, key=len, reverse=True)`. -/
def sorted_stages : List String := sortByLenDesc valid_stages

/-! ### `stage_detector_agent.py` — `_parse_response`

`json.loads` is an external library call; the classifier is parameterised by
the loader, modelled as a partial function from the JSON text to the decoded
string-to-string object (`none` = `json.JSONDecodeError`).  Step 4 of the
source only ever observes `data.get('stage', '')`, so restricting decoded
values to strings loses nothing. -/

/-- Type of the external JSON loader. -/
def JsonLoads := String → Option (List (String × String))

/-- `response_clean[json_start:json_end]` where `json_start = find(lbrace)`
and `json_end = rfind(rbrace) + 1`, returning `none` when the source's guard
`json_start >= 0 and json_end > json_start` fails. -/
def brace_substring (s : String) : Option String :=
  match s.data.findIdx? (· == lbrace), s.data.reverse.findIdx? (· == rbrace) with
  | some i, some jr =>
      let j := s.data.length - 1 - jr
      if i ≤ j then some (String.mk ((s.data.drop i).take (j + 1 - i))) else none
  | _, _ => none

/-- Step 4 of `_parse_response`: locate the brace-delimited substring, decode
it, read `data.get('stage','').lower().strip()` and accept it when it is a
valid stage. -/
def json_stage_step (loads : JsonLoads) (response_clean : String) : Option String :=
  match brace_substring response_clean with
  | some json_str =>
    match loads json_str with
    | some data =>
        let stage := pyTrim (pyLower ((data.lookup "stage").getD ""))
        if valid_stages.contains stage then some stage else none
    | none => none
  | none => none

/-- `StageDetectorAgent._parse_response`, returning the detected stage value
(the source wraps it in a `StageDetection` record).  The leading
`if not response` guard is the empty-string test, since the argument is a
string. -/
def parse_response (loads : JsonLoads) (response : String) : String :=
  if response = "" then DialogueStage.greeting.value
  else
    let response_clean := pyLower (pyTrim response)
    if valid_stages.contains response_clean then response_clean
    else if valid_stages.contains ((pySplitWs response_clean).headD "") then
      (pySplitWs response_clean).headD ""
    else
      match sorted_stages.find? (fun st => regex_word_search st response_clean) with
      | some st => st
      | none =>
        match json_stage_step loads response_clean with
        | some st => st
        | none =>
          match sorted_stages.find? (fun st => contains_substr st response_clean) with
          | some st => st
          | none => DialogueStage.greeting.value

/-! ### `tools_registry.py` -/

/-- Outcome of running a tool's constructor plus `process` on the keyword
arguments: a returned string, the Escalation Signal (`CallManagerException`,
carrying the `user_message` and `manager_alert` of its `escalation_result`),
or an ordinary exception with its `str(e)` text. -/
inductive ExecOutcome where
  | ret (result : String)
  | raiseCM (userMessage managerAlert : String)
  | raiseExc (msg : String)
deriving DecidableEq, Repr

/-- Is the outcome the Escalation Signal? -/
def ExecOutcome.isCM : ExecOutcome → Bool
  | .raiseCM _ _ => true
  | _ => false

/-- A tool class submitted to `register_tool`: its `__name__`, whether it is a
`BaseModel` subclass, whether it has a `process` method, its object identity,
and the behaviour of constructing it and calling `process` on given keyword
arguments (the constructor runs before the `_conversation_history` and
`_chat_id` pops, so it is a function of the full keyword mapping). -/
structure ToolClass where
  name : String
  isBaseModel : Bool
  hasProcess : Bool
  ident : Nat
  proc : List (String × String) → ExecOutcome

/-- The closure `tool_wrapper` installed by `register_tool`: run the tool; let
`CallManagerException` propagate; catch any other exception and return the
stringified error instead. -/
def tool_wrapper (t : ToolClass) (kwargs : List (String × String)) : ExecOutcome :=
  match t.proc kwargs with
  | .ret r => .ret r
  | .raiseCM u m => .raiseCM u m
  | .raiseExc msg => .ret ("Ошибка при выполнении инструмента " ++ t.name ++ ": " ++ msg)

/-- `ResponsesToolsRegistry`: `_local_functions` and `_tool_classes`, both
keyed by tool name in insertion order. -/
structure Registry where
  localFunctions : List (String × (List (String × String) → ExecOutcome))
  toolClasses : List (String × ToolClass)

/-- The freshly constructed registry. -/
def emptyRegistry : Registry := ⟨[], []⟩

/-- `register_tool`: `ValueError` when the class is not a `BaseModel`
subclass or lacks `process`; silently return when the name is already in
`_tool_classes`; otherwise install the class and its `tool_wrapper`. -/
def register_tool (reg : Registry) (t : ToolClass) : Except String Registry :=
  if !t.isBaseModel then
    .error ("Инструмент " ++ t.name ++ " должен быть наследником BaseModel")
  else if !t.hasProcess then
    .error ("Инструмент " ++ t.name ++ " должен иметь метод process")
  else if (reg.toolClasses.lookup t.name).isSome then
    .ok reg
  else
    .ok ⟨reg.localFunctions ++ [(t.name, tool_wrapper t)],
         reg.toolClasses ++ [(t.name, t)]⟩

/-- Did registration fail? -/
def isOk {ε α : Type} : Except ε α → Bool
  | .ok _ => true
  | .error _ => false

/-- Python dict assignment `d[k] = v`: overwrite the (unique) occurrence of
the key in place when present, otherwise append (dicts preserve insertion
order). -/
def dictSet : List (String × String) → String → String → List (String × String)
  | [], k, v => [(k, v)]
  | (a, b) :: t, k, v => if a == k then (k, v) :: t else (a, b) :: dictSet t k v

/-- What `call_tool` does from its caller's point of view: return a value,
raise the Escalation Signal, or raise an ordinary exception. -/
inductive CallResult where
  | value (result : String)
  | raiseCM (userMessage managerAlert : String)
  | raiseErr (msg : String)
deriving DecidableEq, Repr

/-- Is the call result the Escalation Signal? -/
def CallResult.isCM : CallResult → Bool
  | .raiseCM _ _ => true
  | _ => false

/-- The two `arguments[...] = ...` statements of `call_tool`: insert
`_conversation_history` and then `_chat_id` when they are not `None`. -/
def injectSpecials (arguments : List (String × String))
    (conversationHistory chatId : Option String) : List (String × String) :=
  let args1 := match conversationHistory with
    | some h => dictSet arguments "_conversation_history" h
    | none => arguments
  match chatId with
  | some c => dictSet args1 "_chat_id" c
  | none => args1

/-- `call_tool`: look the wrapper up (raising `RuntimeError` for an unknown
name, before any mutation); inject `_conversation_history` and `_chat_id`
into the caller's `arguments` dict in place when they are not `None`; run the
wrapper.  The first component of the result is the caller's `arguments`
object as it stands after the call — the in-place mutation made explicit. -/
def call_tool (reg : Registry) (name : String) (arguments : List (String × String))
    (conversationHistory : Option String) (chatId : Option String) :
    List (String × String) × CallResult :=
  match reg.localFunctions.lookup name with
  | none => (arguments, .raiseErr ("Инструмент " ++ name ++ " не зарегистрирован"))
  | some fn =>
    let args2 := injectSpecials arguments conversationHistory chatId
    match fn args2 with
    | .ret r => (args2, .value r)
    | .raiseCM u m => (args2, .raiseCM u m)
    | .raiseExc msg => (args2, .raiseErr msg)

/-! ### `orchestrator.py` -/

/-- An element of a response's `output` list: either a `function_call` item
(with the `.get` defaults `""`, `""`, `"` + empty braces + `"` already
applied) or anything else.  The `arguments` field carries the decoded form of
the JSON argument string: `some d` for a string decoding to the dict `d`,
`none` for a string on which `json.loads` raises (the missing-field default
decodes to `some []`). -/
inductive OutputItem where
  | functionCall (name callId : String) (arguments : Option (List (String × String)))
  | other
deriving DecidableEq, Repr

/-- A Responses API response as consumed by `run_turn`: `id` and
`output_text` are `none` when the attribute is missing, and both
`hasattr ∧ truthy` guards are rendered by `optTruthy`. -/
structure Response where
  id : Option String
  output_text : Option String
  output : List OutputItem
deriving DecidableEq, Repr

/-- Python truthiness of an optional string attribute:
`hasattr(.., a) and x.a`. -/
def optTruthy : Option String → Bool
  | none => false
  | some s => !(s == "")

/-- A tool-call directive as extracted by `_extract_tool_calls`. -/
structure Directive where
  name : String
  callId : String
  arguments : Option (List (String × String))
deriving DecidableEq, Repr

/-- `_extract_tool_calls`: keep the `function_call` items, in order. -/
def extract_tool_calls (response : Response) : List Directive :=
  response.output.filterMap fun item =>
    match item with
    | .functionCall name callId arguments => some ⟨name, callId, arguments⟩
    | .other => none

/-- A Tool Invocation Record (`tool_call_info` in the source): name, call id,
the argument dict object stored after the call (hence including any keys
`call_tool` injected), and the result (success payload or stringified
error). -/
structure ToolCallInfo where
  name : String
  callId : String
  args : List (String × String)
  result : String
deriving DecidableEq, Repr

/-- `json.dumps` of a string-to-string dict with `ensure_ascii=False`,
restricted to keys and values free of characters needing escapes. -/
def json_dumps (args : List (String × String)) : String :=
  "\x7b" ++ String.intercalate ", "
      (args.map (fun p => "\"" ++ p.1 ++ "\": \"" ++ p.2 ++ "\"")) ++ "\x7d"

/-- An element of the `input` list sent to the model: the round-1 user
message, or a `function_call` / `function_call_output` pair member.  Tool
results are always strings in this model, so the `isinstance(result, str)`
branch of the source applies to outputs. -/
inductive InputItem where
  | message (role content : String)
  | functionCall (callId name : String) (arguments : String)
  | functionCallOutput (callId : String) (output : String)
deriving DecidableEq, Repr

/-- `_build_tool_results_input`: one `function_call` entry immediately
followed by one `function_call_output` entry per record, echoing the stored
`call_id`, the arguments re-serialised with `json.dumps`. -/
def build_tool_results_input (infos : List ToolCallInfo) : List InputItem :=
  infos.flatMap fun tc =>
    [ .functionCall tc.callId tc.name (json_dumps tc.args),
      .functionCallOutput tc.callId tc.result ]

/-- The `input_messages` computed at the top of iteration `iter` (1-based):
the user message on the first iteration, the previous iteration's paired
directive/result entries afterwards. -/
def roundInput (userMessage : String) (lastIter : List ToolCallInfo) (iter : Nat) :
    List InputItem :=
  if iter == 1 then [InputItem.message "user" userMessage]
  else build_tool_results_input lastIter

/-- The model client `create_response`, as a function of the iteration
number, the `input_messages` and the current `previous_response_id`; `none`
models the `except Exception` branch (the orchestrator breaks the loop).
The constant `instructions` and tool schemas are absorbed into the
function. -/
def Client := Nat → List InputItem → Option String → Option Response

/-- The dictionary `run_turn` returns.  The Python dict of the escalation
return carries `call_manager: True` and `manager_alert`, and no
`raw_response` key; the normal return carries neither escalation key
(`call_manager := false`, `manager_alert := none` here). -/
structure TurnResult where
  reply : String
  response_id : Option String
  tool_calls : List ToolCallInfo
  call_manager : Bool
  manager_alert : Option String
  raw_response : Option Response
deriving DecidableEq, Repr

/-- One entry per `create_response` call actually issued: the iteration
number, the `input_messages` and the `previous_response_id` sent.  This trace
instruments the embedding; the source only performs the calls. -/
structure RequestLog where
  iteration : Nat
  inputMessages : List InputItem
  previousResponseId : Option String
deriving DecidableEq, Repr

/-- Outcome of the `for call in tool_calls` loop of one iteration. -/
inductive DirectivesOutcome where
  | completed (toolCallsInfo lastIter : List ToolCallInfo)
  | escalated (userMessage managerAlert : String) (toolCallsInfo : List ToolCallInfo)
deriving Repr

/-- The `call_tool` invocation one directive gives rise to inside the loop:
`args = json.loads(arguments)` (decode failure yields the empty dict), then
`call_tool(func_name, args, conversation_history=None, chat_id=chat_id)`. -/
abbrev dirCall (reg : Registry) (chatId : Option String) (d : Directive) :
    List (String × String) × CallResult :=
  call_tool reg d.name (d.arguments.getD []) none chatId

/-- The `for call in tool_calls` body: call the tool via `dirCall`, append
the record to both accumulators on success, return the escalation data on
`CallManagerException` (no record for that call), and append a record with
the stringified error on any other exception. -/
def processDirectives (reg : Registry) (chatId : Option String) :
    List Directive → List ToolCallInfo → List ToolCallInfo → DirectivesOutcome
  | [], acc, lastAcc => .completed acc lastAcc
  | d :: rest, acc, lastAcc =>
    match dirCall reg chatId d with
    | (argsAfter, .value result) =>
        let info : ToolCallInfo := ⟨d.name, d.callId, argsAfter, result⟩
        processDirectives reg chatId rest (acc ++ [info]) (lastAcc ++ [info])
    | (_, .raiseCM u m) => .escalated u m acc
    | (argsAfter, .raiseErr msg) =>
        let info : ToolCallInfo :=
          ⟨d.name, d.callId, argsAfter, "Ошибка при выполнении инструмента: " ++ msg⟩
        processDirectives reg chatId rest (acc ++ [info]) (lastAcc ++ [info])

/-- The Tool Invocation Record a single non-escalating directive produces
(the `raiseCM` branch is junk — the loop creates no record there). -/
def recordOf (reg : Registry) (chatId : Option String) (d : Directive) : ToolCallInfo :=
  match dirCall reg chatId d with
  | (argsAfter, .value result) => ⟨d.name, d.callId, argsAfter, result⟩
  | (argsAfter, .raiseCM _ _) => ⟨d.name, d.callId, argsAfter, ""⟩
  | (argsAfter, .raiseErr msg) =>
      ⟨d.name, d.callId, argsAfter, "Ошибка при выполнении инструмента: " ++ msg⟩

/-- The final `return` of `run_turn` reached by falling out of the loop or by
`break`. -/
def mkFinalResult (replyText : String) (finalResponseId : Option String)
    (toolCallsInfo : List ToolCallInfo) (lastRaw : Option Response) : TurnResult :=
  { reply := replyText, response_id := finalResponseId, tool_calls := toolCallsInfo,
    call_manager := false, manager_alert := none, raw_response := lastRaw }

/-- The `while iteration < max_iterations` loop.  `fuel` is
`max_iterations - iteration`; the remaining arguments are the loop variables
`iteration`, `tool_calls_info`, `last_iteration_tool_calls`, `reply_text`,
`current_response_id`, `final_response_id` and `last_raw_response`.  Besides
the returned dictionary, the embedding also returns the request trace. -/
def runTurnAux (client : Client) (reg : Registry) (userMessage : String)
    (chatId : Option String) :
    Nat → Nat → List ToolCallInfo → List ToolCallInfo → String → Option String →
    Option String → Option Response → TurnResult × List RequestLog
  | 0, _, toolCallsInfo, _, replyText, _, finalId, lastRaw =>
      (mkFinalResult replyText finalId toolCallsInfo lastRaw, [])
  | fuel + 1, iteration, toolCallsInfo, lastIter, replyText, currentId, finalId, lastRaw =>
      let iter := iteration + 1
      let inputMessages := roundInput userMessage lastIter iter
      let entry : RequestLog := ⟨iter, inputMessages, currentId⟩
      match client iter inputMessages currentId with
      | none => (mkFinalResult replyText finalId toolCallsInfo lastRaw, [entry])
      | some response =>
        let lastRaw' := some response
        let currentId' := if optTruthy response.id then response.id else currentId
        let finalId' := if optTruthy response.id then response.id else finalId
        if optTruthy response.output_text then
          (mkFinalResult (response.output_text.getD "") finalId' toolCallsInfo lastRaw', [entry])
        else
          let toolCalls := extract_tool_calls response
          if toolCalls.isEmpty then
            (mkFinalResult replyText finalId' toolCallsInfo lastRaw', [entry])
          else
            match processDirectives reg chatId toolCalls toolCallsInfo [] with
            | .escalated u m acc =>
                ({ reply := u, response_id := finalId', tool_calls := acc,
                   call_manager := true, manager_alert := some m, raw_response := none },
                 [entry])
            | .completed acc lastAcc =>
                let next := runTurnAux client reg userMessage chatId fuel iter acc lastAcc
                  replyText currentId' finalId' lastRaw'
                (next.1, entry :: next.2)

/-- `max_iterations = 10`. -/
def max_iterations : Nat := 10

/-- `run_turn` with its request trace: counter at 0, empty record lists,
empty reply, `current_response_id = previous_response_id`,
`final_response_id = None`. -/
def run_turn_traced (client : Client) (reg : Registry) (userMessage : String)
    (previousResponseId : Option String) (chatId : Option String) :
    TurnResult × List RequestLog :=
  runTurnAux client reg userMessage chatId max_iterations 0 [] [] ""
    previousResponseId none none

/-- `ResponsesOrchestrator.run_turn`. -/
def run_turn (client : Client) (reg : Registry) (userMessage : String)
    (previousResponseId : Option String) (chatId : Option String) : TurnResult :=
  (run_turn_traced client reg userMessage previousResponseId chatId).1

/-! ### The classifier chain as the specification words it

`parse_chain_spec` renders the specified parsing policy verbatim: five steps
applied in order to the trimmed, lower-cased output, else the fallback stage.
Its step 4 parses *the output* as JSON, exactly as worded.
`parse_chain_amended` differs from it in step 4 only: there the substring
from the first opening brace through the last closing brace of the output is
what is parsed as JSON (the source's behaviour). -/

/-- The claimed parsing chain, step 4 parsing the whole output as JSON. -/
def parse_chain_spec (loads : JsonLoads) (output : String) : String :=
  let cleaned := pyLower (pyTrim output)
  if valid_stages.contains cleaned then cleaned
  else if valid_stages.contains ((pySplitWs cleaned).headD "") then
    (pySplitWs cleaned).headD ""
  else
    match sorted_stages.find? (fun st => regex_word_search st cleaned) with
    | some st => st
    | none =>
      match (match loads cleaned with
             | some data =>
                 let st := pyTrim (pyLower ((data.lookup "stage").getD ""))
                 if valid_stages.contains st then some st else none
             | none => none) with
      | some st => st
      | none =>
        match sorted_stages.find? (fun st => contains_substr st cleaned) with
        | some st => st
        | none => DialogueStage.greeting.value

/-- The parsing chain with step 4 amended to parse the brace-delimited
substring of the output, as the source does. -/
def parse_chain_amended (loads : JsonLoads) (output : String) : String :=
  let cleaned := pyLower (pyTrim output)
  if valid_stages.contains cleaned then cleaned
  else if valid_stages.contains ((pySplitWs cleaned).headD "") then
    (pySplitWs cleaned).headD ""
  else
    match sorted_stages.find? (fun st => regex_word_search st cleaned) with
    | some st => st
    | none =>
      match json_stage_step loads cleaned with
      | some st => st
      | none =>
        match sorted_stages.find? (fun st => contains_substr st cleaned) with
        | some st => st
        | none => DialogueStage.greeting.value

/-! ### Concrete fixtures for witnesses and counterexamples -/

/-- A loader agreeing with `json.loads` at the inputs probed below: on the
object text whose `stage` value spells `booking` through the escape
`i`, `json.loads` returns that object (the escape decodes to `i`);
on every other probed string — all garbage-wrapped — it raises. -/
def loads0 : JsonLoads := fun s =>
  if s = "\x7b\"stage\": \"book\\u0069ng\"\x7d" then some [("stage", "booking")] else none

/-- A model output wrapping a JSON object in garbage: no stage value occurs
verbatim (the escape hides `booking`), yet the brace-delimited substring
decodes to a `booking` stage. -/
def resp0 : String := "zz \x7b\"stage\": \"book\\u0069ng\"\x7d zz"

/-- A well-behaved tool class. -/
def toolOkA : ToolClass := ⟨"GetServices", true, true, 0, fun _ => .ret "services"⟩

/-- A tool class whose `process` raises `CallManagerException`. -/
def toolEsc : ToolClass := ⟨"CallManager", true, true, 1, fun _ => .raiseCM "wait" "alert"⟩

/-- A tool class whose `process` raises an ordinary exception. -/
def toolBoom : ToolClass := ⟨"Boom", true, true, 2, fun _ => .raiseExc "boom"⟩

/-- A valid tool class named `T`. -/
def toolIdA : ToolClass := ⟨"T", true, true, 0, fun _ => .ret "a"⟩

/-- A valid tool class also named `T` but with a different object identity
and behaviour. -/
def toolIdB : ToolClass := ⟨"T", true, true, 1, fun _ => .ret "b"⟩

/-- The registry after registering `toolOkA`. -/
def regOk : Registry := ⟨[("GetServices", tool_wrapper toolOkA)], [("GetServices", toolOkA)]⟩

/-- The registry after registering `toolOkA` then `toolEsc`. -/
def reg1 : Registry :=
  ⟨[("GetServices", tool_wrapper toolOkA), ("CallManager", tool_wrapper toolEsc)],
   [("GetServices", toolOkA), ("CallManager", toolEsc)]⟩

/-- The registry after registering `toolBoom`. -/
def regBoom : Registry := ⟨[("Boom", tool_wrapper toolBoom)], [("Boom", toolBoom)]⟩

/-- The registry after registering `toolIdA`. -/
def regT : Registry := ⟨[("T", tool_wrapper toolIdA)], [("T", toolIdA)]⟩

/-- A stubbed client that never returns `output_text` and always emits one
tool-call directive. -/
def clientLoop : Client := fun _ _ _ =>
  some ⟨some "id1", none, [OutputItem.functionCall "GetServices" "c1" (some [])]⟩

/-- A response whose second directive escalates. -/
def respEsc : Response :=
  ⟨some "r1", none,
   [OutputItem.functionCall "GetServices" "a" (some []),
    OutputItem.functionCall "CallManager" "b" (some []),
    OutputItem.functionCall "GetServices" "c" (some [])]⟩

/-- A client always answering with `respEsc`. -/
def client1 : Client := fun _ _ _ => some respEsc

/-- A client whose responses never carry an id, a text or a directive. -/
def clientNoId : Client := fun _ _ _ => some ⟨none, none, []⟩

/-- A client whose first-round response carries the id `r1` and one tool-call
directive, and whose later responses carry no id and a final text. -/
def clientIdOnce : Client := fun i _ _ =>
  if i == 1 then
    some ⟨some "r1", none, [OutputItem.functionCall "GetServices" "c1" (some [])]⟩
  else some ⟨none, some "done", []⟩

/-! ### Helper lemmas -/

theorem beq_symm_false {a k : String} (h : (a == k) = false) : (k == a) = false := by
  simp only [beq_eq_false_iff_ne] at h ⊢
  exact fun he => h he.symm

theorem lookup_append_of_none {β : Type} (k : String) :
    ∀ (l₁ l₂ : List (String × β)), l₁.lookup k = none →
      (l₁ ++ l₂).lookup k = l₂.lookup k
  | [], l₂, _ => rfl
  | (a, b) :: t, l₂, h => by
      cases hk : k == a with
      | true => exact absurd h (by simp only [List.lookup, hk]; simp)
      | false =>
          simp only [List.lookup, hk] at h
          simp only [List.cons_append, List.lookup, hk]
          exact lookup_append_of_none k t l₂ h

theorem lookup_mem {β : Type} (k : String) :
    ∀ (l : List (String × β)) (v : β), l.lookup k = some v → (k, v) ∈ l
  | [], v, h => by exact absurd h (by simp only [List.lookup]; simp)
  | (a, b) :: t, v, h => by
      cases hk : k == a with
      | true =>
          have hka : k = a := by simpa using hk
          simp only [List.lookup, hk] at h
          obtain rfl : b = v := by simpa using h
          subst hka
          exact List.mem_cons_self ..
      | false =>
          simp only [List.lookup, hk] at h
          exact List.mem_cons_of_mem _ (lookup_mem k t v h)

theorem dictSet_lookup_self : ∀ (l : List (String × String)) (k v : String),
    (dictSet l k v).lookup k = some v
  | [], k, v => by simp [dictSet, List.lookup]
  | (a, b) :: t, k, v => by
      cases hak : a == k with
      | true => simp [dictSet, hak, List.lookup]
      | false =>
          have hka := beq_symm_false hak
          simp only [dictSet, hak, if_false, List.lookup, hka]
          exact dictSet_lookup_self t k v

theorem call_tool_fst (reg : Registry) (name : String) (args : List (String × String))
    (ch ci : Option String) (fn : List (String × String) → ExecOutcome)
    (h : reg.localFunctions.lookup name = some fn) :
    (call_tool reg name args ch ci).1 = injectSpecials args ch ci := by
  simp only [call_tool, h]
  cases hf : fn (injectSpecials args ch ci) <;> rfl

theorem applyWrapper_isCM (fn : List (String × String) → ExecOutcome)
    (a : List (String × String)) (h : (fn a).isCM = false) :
    (((match fn a with
      | .ret r => (a, CallResult.value r)
      | .raiseCM u m => (a, CallResult.raiseCM u m)
      | .raiseExc msg => (a, CallResult.raiseErr msg)) :
        List (String × String) × CallResult)).2.isCM = false := by
  cases hf : fn a with
  | ret r => simp [CallResult.isCM]
  | raiseCM u m => rw [hf] at h; simp [ExecOutcome.isCM] at h
  | raiseExc msg => simp [CallResult.isCM]

theorem call_tool_isCM_false (reg : Registry)
    (hne : ∀ p ∈ reg.localFunctions, ∀ args, ((p.2 args)).isCM = false)
    (name : String) (args : List (String × String)) (ch ci : Option String) :
    ((call_tool reg name args ch ci).2).isCM = false := by
  cases hl : reg.localFunctions.lookup name with
  | none => simp [call_tool, hl, CallResult.isCM]
  | some fn =>
      simp only [call_tool, hl]
      exact applyWrapper_isCM fn _ (hne _ (lookup_mem name _ fn hl) _)

theorem recordOf_callId (reg : Registry) (chatId : Option String) (d : Directive) :
    (recordOf reg chatId d).callId = d.callId := by
  rcases hc : dirCall reg chatId d with ⟨a, res⟩
  cases res <;> simp [recordOf, hc]

theorem processDirectives_clean (reg : Registry) (chatId : Option String) :
    ∀ (ds : List Directive) (acc lastAcc : List ToolCallInfo),
      (∀ e ∈ ds, ((dirCall reg chatId e).2).isCM = false) →
      processDirectives reg chatId ds acc lastAcc =
        .completed (acc ++ ds.map (recordOf reg chatId))
                   (lastAcc ++ ds.map (recordOf reg chatId))
  | [], acc, lastAcc, _ => by simp [processDirectives]
  | d :: rest, acc, lastAcc, h => by
      have hrest : ∀ e ∈ rest, ((dirCall reg chatId e).2).isCM = false :=
        fun e he => h e (List.mem_cons_of_mem _ he)
      rcases hc : dirCall reg chatId d with ⟨a, res⟩
      cases res with
      | value r =>
          simp only [processDirectives, hc]
          rw [processDirectives_clean reg chatId rest _ _ hrest]
          simp [recordOf, hc]
      | raiseCM u m =>
          have hcm := h d (List.mem_cons_self ..)
          rw [hc] at hcm
          simp [CallResult.isCM] at hcm
      | raiseErr msg =>
          simp only [processDirectives, hc]
          rw [processDirectives_clean reg chatId rest _ _ hrest]
          simp [recordOf, hc]

theorem processDirectives_escalated (reg : Registry) (chatId : Option String)
    (d : Directive) (u m : String) (hd : (dirCall reg chatId d).2 = .raiseCM u m) :
    ∀ (ds1 ds2 : List Directive) (acc lastAcc : List ToolCallInfo),
      (∀ e ∈ ds1, ((dirCall reg chatId e).2).isCM = false) →
      processDirectives reg chatId (ds1 ++ d :: ds2) acc lastAcc =
        .escalated u m (acc ++ ds1.map (recordOf reg chatId))
  | [], ds2, acc, lastAcc, _ => by
      rcases hc : dirCall reg chatId d with ⟨a, res⟩
      rw [hc] at hd
      simp only at hd
      subst hd
      simp [processDirectives, hc]
  | e :: t, ds2, acc, lastAcc, h => by
      have ht : ∀ x ∈ t, ((dirCall reg chatId x).2).isCM = false :=
        fun x hx => h x (List.mem_cons_of_mem _ hx)
      rcases hc : dirCall reg chatId e with ⟨a, res⟩
      cases res with
      | value r =>
          simp only [List.cons_append, processDirectives, hc]
          simp only [List.append_eq]
          rw [processDirectives_escalated reg chatId d u m hd t ds2 _ _ ht]
          simp [recordOf, hc]
      | raiseCM u2 m2 =>
          have hcm := h e (List.mem_cons_self ..)
          rw [hc] at hcm
          simp [CallResult.isCM] at hcm
      | raiseErr msg =>
          simp only [List.cons_append, processDirectives, hc]
          simp only [List.append_eq]
          rw [processDirectives_escalated reg chatId d u m hd t ds2 _ _ ht]
          simp [recordOf, hc]

theorem runTurnAux_log_length (client : Client) (reg : Registry) (msg : String)
    (chatId : Option String) :
    ∀ (fuel iteration : Nat) (acc lastIter : List ToolCallInfo) (reply : String)
      (cur fin : Option String) (raw : Option Response),
      ((runTurnAux client reg msg chatId fuel iteration acc lastIter reply cur fin raw).2).length
        ≤ fuel
  | 0, _, _, _, _, _, _, _ => by simp [runTurnAux]
  | fuel + 1, iteration, acc, lastIter, reply, cur, fin, raw => by
      simp only [runTurnAux]
      split
      · simp
      · split
        · simp
        · split
          · simp
          · split
            · simp
            · simp only [List.length_cons]
              exact Nat.succ_le_succ
                (runTurnAux_log_length client reg msg chatId fuel _ _ _ _ _ _ _)

theorem runTurnAux_head_log (client : Client) (reg : Registry) (msg : String)
    (chatId : Option String) (fuel iteration : Nat) (acc lastIter : List ToolCallInfo)
    (reply : String) (cur fin : Option String) (raw : Option Response) :
    ((runTurnAux client reg msg chatId (fuel + 1) iteration acc lastIter reply cur fin
        raw).2).head? =
      some ⟨iteration + 1, roundInput msg lastIter (iteration + 1), cur⟩ := by
  simp only [runTurnAux]
  split
  · rfl
  · split
    · rfl
    · split
      · rfl
      · split
        · rfl
        · rfl

theorem runTurnAux_response_id (client : Client) (reg : Registry) (msg : String)
    (chatId : Option String)
    (hid : ∀ i inp pid r, client i inp pid = some r → optTruthy r.id = false) :
    ∀ (fuel iteration : Nat) (acc lastIter : List ToolCallInfo) (reply : String)
      (cur fin : Option String) (raw : Option Response),
      ((runTurnAux client reg msg chatId fuel iteration acc lastIter reply cur fin
          raw).1).response_id = fin
  | 0, _, _, _, _, _, _, _ => by simp [runTurnAux, mkFinalResult]
  | fuel + 1, iteration, acc, lastIter, reply, cur, fin, raw => by
      simp only [runTurnAux]
      cases hc : client (iteration + 1) (roundInput msg lastIter (iteration + 1)) cur with
      | none => simp [mkFinalResult]
      | some r =>
          have hfalse : optTruthy r.id = false := hid _ _ _ r hc
          simp only [hfalse, Bool.false_eq_true, if_false]
          split
          · simp [mkFinalResult]
          · split
            · simp [mkFinalResult]
            · split
              · simp
              · simp only
                exact runTurnAux_response_id client reg msg chatId hid fuel _ _ _ _ _ _ _

theorem runTurnAux_response_id_from (client : Client) (reg : Registry) (msg : String)
    (chatId : Option String) (n : Nat)
    (hid : ∀ i inp pid r, n < i → client i inp pid = some r → optTruthy r.id = false) :
    ∀ (fuel iteration : Nat), n ≤ iteration →
      ∀ (acc lastIter : List ToolCallInfo) (reply : String) (cur fin : Option String)
        (raw : Option Response),
      ((runTurnAux client reg msg chatId fuel iteration acc lastIter reply cur fin
          raw).1).response_id = fin
  | 0, _, _, _, _, _, _, _, _ => by simp [runTurnAux, mkFinalResult]
  | fuel + 1, iteration, hle, acc, lastIter, reply, cur, fin, raw => by
      simp only [runTurnAux]
      cases hc : client (iteration + 1) (roundInput msg lastIter (iteration + 1)) cur with
      | none => simp [mkFinalResult]
      | some r =>
          have hfalse : optTruthy r.id = false :=
            hid _ _ _ r (Nat.lt_succ_of_le hle) hc
          simp only [hfalse, Bool.false_eq_true, if_false]
          split
          · simp [mkFinalResult]
          · split
            · simp [mkFinalResult]
            · split
              · simp
              · simp only
                exact runTurnAux_response_id_from client reg msg chatId n hid fuel
                  (iteration + 1) (Nat.le_succ_of_le hle) _ _ _ _ _ _

theorem runTurnAux_busy (client : Client) (reg : Registry) (msg : String)
    (chatId : Option String)
    (hclient : ∀ i inp pid, ∃ r, client i inp pid = some r ∧
        optTruthy r.output_text = false ∧ extract_tool_calls r ≠ [])
    (hne : ∀ p ∈ reg.localFunctions, ∀ args, ((p.2 args)).isCM = false) :
    ∀ (fuel iteration : Nat) (acc lastIter : List ToolCallInfo) (reply : String)
      (cur fin : Option String) (raw : Option Response),
      ((runTurnAux client reg msg chatId fuel iteration acc lastIter reply cur fin
          raw).1).call_manager = false ∧
      ((runTurnAux client reg msg chatId fuel iteration acc lastIter reply cur fin
          raw).1).reply = reply ∧
      ((runTurnAux client reg msg chatId fuel iteration acc lastIter reply cur fin
          raw).1).manager_alert = none
  | 0, _, _, _, _, _, _, _ => by simp [runTurnAux, mkFinalResult]
  | fuel + 1, iteration, acc, lastIter, reply, cur, fin, raw => by
      obtain ⟨r, hr, htxt, hcl⟩ :=
        hclient (iteration + 1) (roundInput msg lastIter (iteration + 1)) cur
      have hemp : (extract_tool_calls r).isEmpty = false := by
        cases hx : extract_tool_calls r
        · exact absurd hx hcl
        · rfl
      have hclean : ∀ e ∈ extract_tool_calls r, ((dirCall reg chatId e).2).isCM = false :=
        fun e _ => call_tool_isCM_false reg hne _ _ _ _
      simp only [runTurnAux, hr, htxt, Bool.false_eq_true, if_false, hemp,
        processDirectives_clean reg chatId _ _ _ hclean]
      exact runTurnAux_busy client reg msg chatId hclient hne fuel _ _ _ _ _ _ _

/-- C1: if, while processing the directives of any round, a tool invocation
raises the Escalation Signal, `run_turn` immediately returns a Turn Result
with the escalation indicator set, the reply equal to the signal's
user-facing message, the manager alert equal to the manager-facing message,
and the tool-call list holding exactly the records accumulated before the
escalating call; the remaining directives are not invoked and no further
round occurs (the request trace of the remaining loop is this round's single
entry). -/
theorem run_turn_escalation_short_circuit
    (client : Client) (reg : Registry) (msg : String) (chatId : Option String)
    (fuel iteration : Nat) (acc lastIter : List ToolCallInfo) (replyText : String)
    (cur fin : Option String) (raw : Option Response)
    (resp : Response) (ds1 : List Directive) (d : Directive) (ds2 : List Directive)
    (u m : String)
    (hclient : client (iteration + 1) (roundInput msg lastIter (iteration + 1)) cur =
      some resp)
    (htext : optTruthy resp.output_text = false)
    (hcalls : extract_tool_calls resp = ds1 ++ d :: ds2)
    (hpre : ∀ e ∈ ds1, ((dirCall reg chatId e).2).isCM = false)
    (hd : (dirCall reg chatId d).2 = .raiseCM u m) :
    runTurnAux client reg msg chatId (fuel + 1) iteration acc lastIter replyText cur fin
        raw =
      ({ reply := u,
         response_id := if optTruthy resp.id then resp.id else fin,
         tool_calls := acc ++ ds1.map (recordOf reg chatId),
         call_manager := true,
         manager_alert := some m,
         raw_response := none },
       [⟨iteration + 1, roundInput msg lastIter (iteration + 1), cur⟩]) := by
  have hemp : (ds1 ++ d :: ds2).isEmpty = false := by cases ds1 <;> rfl
  simp only [runTurnAux, hclient, htext, Bool.false_eq_true, if_false, hcalls, hemp,
    processDirectives_escalated reg chatId d u m hd ds1 ds2 acc [] hpre]

/-- C1 witness: a concrete run in which the second of three directives
escalates; the first directive's record is kept, the third is never run, and
the loop stops after one round. -/
theorem run_turn_escalation_short_circuit_witness :
    runTurnAux client1 reg1 "hi" none 9 0 [] [] "" none none none =
      ({ reply := "wait", response_id := some "r1",
         tool_calls := [⟨"GetServices", "a", [], "services"⟩],
         call_manager := true, manager_alert := some "alert", raw_response := none },
       [⟨1, [InputItem.message "user" "hi"], none⟩]) := by
  have h := run_turn_escalation_short_circuit client1 reg1 "hi" none 8 0 [] [] "" none
    none none respEsc [⟨"GetServices", "a", some []⟩] ⟨"CallManager", "b", some []⟩
    [⟨"GetServices", "c", some []⟩] "wait" "alert" rfl rfl rfl (by decide) rfl
  exact h

/-- C2: for every client behaviour, `run_turn` issues at most
`max_iterations = 10` calls to `create_response`; and for any client that
never returns a truthy `output_text` and always emits tool-call directives,
with tools that never escalate, the returned result carries no escalation and
the (empty) accumulated reply. -/
theorem run_turn_round_budget (client : Client) (reg : Registry) (msg : String)
    (prev chatId : Option String) :
    (run_turn_traced client reg msg prev chatId).2.length ≤ max_iterations ∧
    ((∀ i inp pid, ∃ r, client i inp pid = some r ∧ optTruthy r.output_text = false ∧
        extract_tool_calls r ≠ []) →
      (∀ p ∈ reg.localFunctions, ∀ args, ((p.2 args)).isCM = false) →
      (run_turn_traced client reg msg prev chatId).1.call_manager = false ∧
      (run_turn_traced client reg msg prev chatId).1.reply = "" ∧
      (run_turn_traced client reg msg prev chatId).1.manager_alert = none) := by
  constructor
  · exact runTurnAux_log_length client reg msg chatId max_iterations 0 [] [] "" prev
      none none
  · intro hclient hne
    exact runTurnAux_busy client reg msg chatId hclient hne max_iterations 0 [] [] ""
      prev none none

/-- C2 witness: a stubbed client that never returns text and always emits one
tool call; the run makes exactly ten round trips (at most ten, as claimed)
and ends unescalated with an empty reply. -/
theorem run_turn_round_budget_witness :
    (run_turn_traced clientLoop regOk "hi" none none).2.length ≤ max_iterations ∧
    ((run_turn_traced clientLoop regOk "hi" none none).1.call_manager = false ∧
     (run_turn_traced clientLoop regOk "hi" none none).1.reply = "" ∧
     (run_turn_traced clientLoop regOk "hi" none none).1.manager_alert = none) := by
  refine ⟨(run_turn_round_budget clientLoop regOk "hi" none none).1,
    (run_turn_round_budget clientLoop regOk "hi" none none).2 ?_ ?_⟩
  · intro i inp pid
    exact ⟨_, rfl, rfl, by decide⟩
  · intro p hp args
    have hp2 : p = ("GetServices", tool_wrapper toolOkA) := by
      simpa [regOk] using hp
    subst hp2
    rfl

/-- C3: when the k-th directive of a round fails with an exception other than
the Escalation Signal (for instance an unknown tool name), a record whose
result is the stringified error is appended, and the remaining directives of
the round are still invoked and recorded, in order; the loop completes
instead of aborting. -/
theorem run_turn_partial_failure_continues (reg : Registry) (chatId : Option String)
    (ds1 : List Directive) (d : Directive) (ds2 : List Directive)
    (acc lastAcc : List ToolCallInfo) (msgStr : String)
    (hpre : ∀ e ∈ ds1, ((dirCall reg chatId e).2).isCM = false)
    (hd : (dirCall reg chatId d).2 = .raiseErr msgStr)
    (hsuf : ∀ e ∈ ds2, ((dirCall reg chatId e).2).isCM = false) :
    processDirectives reg chatId (ds1 ++ d :: ds2) acc lastAcc =
      .completed (acc ++ (ds1 ++ d :: ds2).map (recordOf reg chatId))
                 (lastAcc ++ (ds1 ++ d :: ds2).map (recordOf reg chatId)) ∧
    (recordOf reg chatId d).result = "Ошибка при выполнении инструмента: " ++ msgStr := by
  have hall : ∀ e ∈ ds1 ++ d :: ds2, ((dirCall reg chatId e).2).isCM = false := by
    intro e he
    rcases List.mem_append.mp he with h1 | h2
    · exact hpre e h1
    · rcases List.mem_cons.mp h2 with rfl | h3
      · rw [hd]; rfl
      · exact hsuf e h3
  refine ⟨processDirectives_clean reg chatId _ _ _ hall, ?_⟩
  rcases hc : dirCall reg chatId d with ⟨a, res⟩
  rw [hc] at hd
  simp only at hd
  subst hd
  simp [recordOf, hc]

/-- C3 witness: the first directive names an unregistered tool (`RuntimeError`
stringified into its record) and the second still runs and is recorded. -/
theorem run_turn_partial_failure_continues_witness :
    processDirectives regOk none
        [⟨"Nope", "x", some []⟩, ⟨"GetServices", "y", some []⟩] [] [] =
      .completed
        [⟨"Nope", "x", [],
          "Ошибка при выполнении инструмента: Инструмент Nope не зарегистрирован"⟩,
         ⟨"GetServices", "y", [], "services"⟩]
        [⟨"Nope", "x", [],
          "Ошибка при выполнении инструмента: Инструмент Nope не зарегистрирован"⟩,
         ⟨"GetServices", "y", [], "services"⟩] ∧
    (recordOf regOk none ⟨"Nope", "x", some []⟩).result =
      "Ошибка при выполнении инструмента: Инструмент Nope не зарегистрирован" := by
  have h := run_turn_partial_failure_continues regOk none [] ⟨"Nope", "x", some []⟩
    [⟨"GetServices", "y", some []⟩] [] [] "Инструмент Nope не зарегистрирован"
    (by decide) rfl (by decide)
  exact h

/-- C7: one record per processed directive, in emission order — the loop over
a round's directives appends exactly the per-directive records in order when
no directive escalates, and appends exactly the records of the directives
before the escalating one when one does (none for the escalating call). -/
theorem run_turn_one_record_per_directive (reg : Registry) (chatId : Option String)
    (ds : List Directive) (acc lastAcc : List ToolCallInfo) :
    ((∀ e ∈ ds, ((dirCall reg chatId e).2).isCM = false) →
      processDirectives reg chatId ds acc lastAcc =
        .completed (acc ++ ds.map (recordOf reg chatId))
                   (lastAcc ++ ds.map (recordOf reg chatId))) ∧
    (∀ ds1 d ds2 u m, ds = ds1 ++ d :: ds2 →
      (∀ e ∈ ds1, ((dirCall reg chatId e).2).isCM = false) →
      (dirCall reg chatId d).2 = .raiseCM u m →
      processDirectives reg chatId ds acc lastAcc =
        .escalated u m (acc ++ ds1.map (recordOf reg chatId))) := by
  constructor
  · exact fun h => processDirectives_clean reg chatId ds acc lastAcc h
  · intro ds1 d ds2 u m hds hpre hd
    subst hds
    exact processDirectives_escalated reg chatId d u m hd ds1 ds2 acc lastAcc hpre

/-- C7 witness: both halves instantiated — a clean round records each
directive once in order; an escalating round records only the directives
before the escalating one. -/
theorem run_turn_one_record_per_directive_witness :
    processDirectives regOk none [⟨"GetServices", "a", some []⟩] [] [] =
      .completed [⟨"GetServices", "a", [], "services"⟩]
                 [⟨"GetServices", "a", [], "services"⟩] ∧
    processDirectives reg1 none
        [⟨"GetServices", "a", some []⟩, ⟨"CallManager", "b", some []⟩] [] [] =
      .escalated "wait" "alert" [⟨"GetServices", "a", [], "services"⟩] := by
  refine ⟨(run_turn_one_record_per_directive regOk none
      [⟨"GetServices", "a", some []⟩] [] []).1 (by decide), ?_⟩
  exact (run_turn_one_record_per_directive reg1 none
      [⟨"GetServices", "a", some []⟩, ⟨"CallManager", "b", some []⟩] [] []).2
    [⟨"GetServices", "a", some []⟩] ⟨"CallManager", "b", some []⟩ [] "wait" "alert"
    rfl (by decide) rfl

/-- C4: after a round whose directives all complete, the next round's request
input is built from that round's records only: per record, in order, exactly
one `function_call` entry immediately followed by one `function_call_output`
entry, both echoing the record's `call_id`; and each record's `call_id` is
the directive's `call_id` unchanged.  No earlier round's entries appear: the
input is exactly the flat pairing of this round's records. -/
theorem run_turn_pairing_fidelity
    (client : Client) (reg : Registry) (msg : String) (chatId : Option String)
    (fuel iteration : Nat) (acc lastIter : List ToolCallInfo) (replyText : String)
    (cur fin : Option String) (raw : Option Response)
    (resp : Response) (ds : List Directive)
    (hclient : client (iteration + 1) (roundInput msg lastIter (iteration + 1)) cur =
      some resp)
    (htext : optTruthy resp.output_text = false)
    (hcalls : extract_tool_calls resp = ds)
    (hne : ds ≠ [])
    (hclean : ∀ e ∈ ds, ((dirCall reg chatId e).2).isCM = false) :
    (((runTurnAux client reg msg chatId (fuel + 2) iteration acc lastIter replyText cur
        fin raw).2)[1]? =
      some ⟨iteration + 2,
            (ds.map (recordOf reg chatId)).flatMap
              (fun tc => [InputItem.functionCall tc.callId tc.name (json_dumps tc.args),
                          InputItem.functionCallOutput tc.callId tc.result]),
            if optTruthy resp.id then resp.id else cur⟩) ∧
    ∀ e ∈ ds, (recordOf reg chatId e).callId = e.callId := by
  have hemp : ds.isEmpty = false := by
    cases ds
    · exact absurd rfl hne
    · rfl
  constructor
  · show ((runTurnAux client reg msg chatId (fuel + 1 + 1) iteration acc lastIter
        replyText cur fin raw).2)[1]? = _
    simp only [runTurnAux, hclient, htext, Bool.false_eq_true, if_false, hcalls, hemp,
      processDirectives_clean reg chatId ds acc [] hclean]
    simp only [List.getElem?_cons_succ, List.nil_append]
    rw [← List.head?_eq_getElem?]
    split
    · rfl
    · split
      · rfl
      · split
        · rfl
        · split
          · rfl
          · rfl
  · intro e _
    exact recordOf_callId reg chatId e

/-- C4 witness: the round-1 record of the single directive `c1` is echoed
into round 2's input as a `function_call`/`function_call_output` pair with
the same call id. -/
theorem run_turn_pairing_fidelity_witness :
    (((runTurnAux clientLoop regOk "hi" none 8 0 [] [] "" none none none).2)[1]? =
      some ⟨2, [InputItem.functionCall "c1" "GetServices" "\x7b\x7d",
                InputItem.functionCallOutput "c1" "services"], some "id1"⟩) ∧
    (recordOf regOk none ⟨"GetServices", "c1", some []⟩).callId = "c1" := by
  have h := run_turn_pairing_fidelity clientLoop regOk "hi" none 6 0 [] [] "" none none
    none ⟨some "id1", none, [OutputItem.functionCall "GetServices" "c1" (some [])]⟩
    [⟨"GetServices", "c1", some []⟩] rfl rfl rfl (by decide) (by decide)
  exact ⟨h.1, h.2 _ (by decide)⟩

/-- C5 counterexample: a turn in which no round returns a new id.  Called
with the input token `tok`, `run_turn` returns `None` as the continuation
token, not the caller's token: the returned `response_id` is
`final_response_id`, which is initialised to `None`, while the input token
only initialises the request-side `current_response_id`. -/
theorem run_turn_token_counterexample :
    (run_turn clientNoId emptyRegistry "hi" (some "tok") none).response_id = none ∧
    (run_turn clientNoId emptyRegistry "hi" (some "tok") none).response_id ≠
      some "tok" := by
  constructor
  · rfl
  · decide

/-- C5 amended: the Turn Result carries the id of the last response that
carried one. (i) Update and last-id-wins: at any reachable loop state, when
this round's response carries a truthy id and every later round's response
does not, the returned token is exactly this round's id — whatever the
token's previous value `fin` was, so each truthy id overwrites it, and it is
then returned unchanged through the id-less remainder of the run.  (ii) When
no round's response carries an id, `run_turn` returns `None` — the returned
token is initialised to `None`, not to the caller's input token.  (iii) The
caller's token initialises only the request-side token: the first request is
sent with it. -/
theorem run_turn_token_amended (client : Client) (reg : Registry) (msg : String)
    (prev chatId : Option String) :
    (∀ (fuel iteration : Nat) (acc lastIter : List ToolCallInfo) (reply : String)
        (cur fin : Option String) (raw : Option Response) (resp : Response),
      client (iteration + 1) (roundInput msg lastIter (iteration + 1)) cur =
        some resp →
      optTruthy resp.id = true →
      (∀ i inp pid r, iteration + 1 < i → client i inp pid = some r →
        optTruthy r.id = false) →
      ((runTurnAux client reg msg chatId (fuel + 1) iteration acc lastIter reply cur
          fin raw).1).response_id = resp.id) ∧
    ((∀ i inp pid r, client i inp pid = some r → optTruthy r.id = false) →
      (run_turn_traced client reg msg prev chatId).1.response_id = none) ∧
    ((run_turn_traced client reg msg prev chatId).2).head? =
      some ⟨1, [InputItem.message "user" msg], prev⟩ := by
  refine ⟨?_, ?_, ?_⟩
  · intro fuel iteration acc lastIter reply cur fin raw resp hclient hidt hlater
    simp only [runTurnAux, hclient, hidt, eq_self_iff_true, if_true]
    split
    · simp [mkFinalResult]
    · split
      · simp [mkFinalResult]
      · split
        · simp
        · simp only
          exact runTurnAux_response_id_from client reg msg chatId (iteration + 1)
            hlater fuel (iteration + 1) (Nat.le_refl _) _ _ _ _ _ _
  · intro hid
    exact runTurnAux_response_id client reg msg chatId hid max_iterations 0 [] [] ""
      prev none none
  · have h := runTurnAux_head_log client reg msg chatId 9 0 [] [] "" prev none none
    simpa [roundInput] using h

/-- C5 witness: with `clientIdOnce` — round 1 returns id `r1` and a tool
call, round 2 returns text and no id — the run returns `r1`, overwriting the
initial value; with the id-less `clientNoId` the run returns `None` despite
the input token `tok`; and the first request carries the caller's token. -/
theorem run_turn_token_amended_witness :
    ((runTurnAux clientIdOnce regOk "hi" none 10 0 [] [] "" (some "tok") none
        none).1).response_id = some "r1" ∧
    (run_turn_traced clientNoId emptyRegistry "hi" (some "tok") none).1.response_id =
      none ∧
    ((run_turn_traced clientIdOnce regOk "hi" (some "tok") none).2).head? =
      some ⟨1, [InputItem.message "user" "hi"], some "tok"⟩ := by
  have h1 := run_turn_token_amended clientIdOnce regOk "hi" (some "tok") none
  have h2 := run_turn_token_amended clientNoId emptyRegistry "hi" (some "tok") none
  refine ⟨?_, ?_, h1.2.2⟩
  · exact h1.1 9 0 [] [] "" (some "tok") none none
      ⟨some "r1", none, [OutputItem.functionCall "GetServices" "c1" (some [])]⟩ rfl rfl
      (fun i inp pid r hi hr => by
        have hne : (i == 1) = false := by
          simp only [beq_eq_false_iff_ne]
          omega
        simp only [clientIdOnce, hne, Bool.false_eq_true, if_false] at hr
        obtain rfl : (⟨none, some "done", []⟩ : Response) = r := by simpa using hr
        rfl)
  · exact h2.2.1 (fun i inp pid r hr => by
      simp [clientNoId] at hr
      subst hr
      rfl)

/-- C6 counterexample: `toolBoom`'s `process` raises an ordinary exception
(`boom`), yet `call_tool` on its registry does not raise it to the caller —
the registered wrapper catches it and `call_tool` returns the stringified
error as an ordinary string result, contrary to the claim that ordinary
handler exceptions propagate and are never converted into a returned
string. -/
theorem call_tool_stringifies_counterexample :
    (call_tool regBoom "Boom" [] none none).2 =
      CallResult.value "Ошибка при выполнении инструмента Boom: boom" ∧
    (call_tool regBoom "Boom" [] none none).2 ≠ CallResult.raiseErr "boom" := by
  constructor
  · rfl
  · decide

/-- C6 amended: for a tool registered through `register_tool`, `call_tool`
propagates the Escalation Signal raised by the tool un-caught and un-wrapped;
but an ordinary exception raised by the tool is caught inside the registered
wrapper and converted into a returned error-string result, not re-raised. -/
theorem call_tool_exception_amended (reg : Registry) (t : ToolClass) (reg2 : Registry)
    (args : List (String × String)) (conv chatId : Option String) (u m msg : String)
    (hcls : reg.toolClasses.lookup t.name = none)
    (hfn : reg.localFunctions.lookup t.name = none)
    (hreg : register_tool reg t = .ok reg2) :
    (t.proc ((call_tool reg2 t.name args conv chatId).1) = .raiseCM u m →
      (call_tool reg2 t.name args conv chatId).2 = .raiseCM u m) ∧
    (t.proc ((call_tool reg2 t.name args conv chatId).1) = .raiseExc msg →
      (call_tool reg2 t.name args conv chatId).2 =
        .value ("Ошибка при выполнении инструмента " ++ t.name ++ ": " ++ msg)) := by
  simp only [register_tool] at hreg
  split at hreg
  · exact absurd hreg (by simp)
  · split at hreg
    · exact absurd hreg (by simp)
    · split at hreg
      · rename_i hsome
        rw [hcls] at hsome
        simp at hsome
      · injection hreg with hreg2
        subst hreg2
        have hlk : (reg.localFunctions ++
            [(t.name, tool_wrapper t)]).lookup t.name = some (tool_wrapper t) := by
          rw [lookup_append_of_none t.name _ _ hfn]
          simp [List.lookup]
        have hfst : ∀ (a2 : List (String × String)) ch ci,
            (call_tool ⟨reg.localFunctions ++ [(t.name, tool_wrapper t)],
              reg.toolClasses ++ [(t.name, t)]⟩ t.name a2 ch ci).1 =
              injectSpecials a2 ch ci :=
          fun a2 ch ci => call_tool_fst _ _ _ _ _ _ hlk
        constructor
        · intro hp
          rw [hfst] at hp
          simp only [call_tool, hlk, tool_wrapper, hp]
        · intro hp
          rw [hfst] at hp
          simp only [call_tool, hlk, tool_wrapper, hp]

/-- C6 witness: the amended statement at `toolBoom`, whose ordinary `boom`
exception comes back as a returned error string. -/
theorem call_tool_exception_amended_witness :
    (call_tool regBoom "Boom" [] none none).2 =
      CallResult.value ("Ошибка при выполнении инструмента " ++ "Boom" ++ ": " ++
        "boom") := by
  have h := call_tool_exception_amended emptyRegistry toolBoom regBoom [] none none
    "u" "m" "boom" rfl rfl rfl
  exact h.2 rfl

/-- C8 counterexample: `toolIdA` and `toolIdB` are both valid tool classes
named `T` with different identities; with `toolIdA` already registered,
registering `toolIdB` succeeds as a silent no-op instead of raising the
claimed registration error for a same-name different-identity handler. -/
theorem register_tool_same_name_counterexample :
    register_tool regT toolIdB = .ok regT ∧
    toolIdA.ident ≠ toolIdB.ident ∧
    regT.toolClasses.lookup "T" = some toolIdA ∧
    isOk (register_tool regT toolIdB) = true :=
  ⟨rfl, by decide, rfl, rfl⟩

/-- C8 amended: `register_tool` raises exactly when the handler lacks the
expected calling convention (not a `BaseModel` subclass, or no `process`
method); re-registration under an already-registered name — whether of the
identical tool or of a different one — is a no-op, not an error. -/
theorem register_tool_error_amended (reg : Registry) (t : ToolClass) :
    (isOk (register_tool reg t) = false ↔
      (t.isBaseModel = false ∨ t.hasProcess = false)) ∧
    (t.isBaseModel = true → t.hasProcess = true →
      (reg.toolClasses.lookup t.name).isSome = true → register_tool reg t = .ok reg) := by
  constructor
  · cases hb : t.isBaseModel with
    | false => simp [register_tool, hb, isOk]
    | true =>
        cases hp : t.hasProcess with
        | false => simp [register_tool, hb, hp, isOk]
        | true =>
            have hok : isOk (register_tool reg t) = true := by
              simp only [register_tool, hb, hp, Bool.not_true, Bool.false_eq_true,
                if_false]
              split <;> rfl
            simp [hok, hb, hp]
  · intro hb hp hs
    simp [register_tool, hb, hp, hs]

/-- C8 witness: the amended statement at the same-name pair — registering
`toolIdB` over `toolIdA` is accepted and leaves the registry unchanged. -/
theorem register_tool_error_amended_witness :
    (isOk (register_tool regT toolIdB) = false ↔
      (toolIdB.isBaseModel = false ∨ toolIdB.hasProcess = false)) ∧
    register_tool regT toolIdB = .ok regT := by
  have h := register_tool_error_amended regT toolIdB
  exact ⟨h.1, h.2 rfl rfl rfl⟩

/-- C9 counterexample: on the output `resp0` — garbage around a JSON object
whose `stage` value spells `booking` only after JSON unescaping — the source
classifier answers `booking` (it parses the brace-delimited substring), while
the claimed chain, whose step 4 parses *the output* as JSON, fails every step
and falls back to `greeting`.  `loads0` agrees with `json.loads` at both
probed inputs: the brace-delimited object text decodes with the escape
resolved to `i`, and the garbage-wrapped full output raises. -/
theorem parse_response_json_step_counterexample :
    parse_response loads0 resp0 = "booking" ∧
    parse_chain_spec loads0 resp0 = "greeting" := by
  constructor
  · decide
  · decide

/-- C9 amended: the classifier applies, in order: (1) exact match of the
trimmed lower-cased output; (2) first whitespace token; (3) whole-word regex,
longest values first; (4) the substring from the first opening brace through
the last closing brace of the output parsed as JSON with a valid `stage`
field; (5) bare substring; else the fallback stage — for every output string
and every behaviour of the JSON loader. -/
theorem parse_response_chain_amended (loads : JsonLoads) (response : String) :
    parse_response loads response = parse_chain_amended loads response := by
  by_cases h : response = ""
  · subst h
    rfl
  · unfold parse_response parse_chain_amended
    rw [if_neg h]

/-- C10: when `run_turn` passes a non-`None` chat id, `call_tool` inserts
`_chat_id` into the very arguments mapping handed to it (and
`_conversation_history` when a history is passed), mutating it before
invoking the wrapper; the record built for the directive stores that mutated
mapping, and `_build_tool_results_input` re-serialises it into the next
round's `function_call` entry, so the injected key appears in the audit trail
and in the arguments echoed to the model. -/
theorem call_tool_mutates_arguments (reg : Registry)
    (fn : List (String × String) → ExecOutcome) (d : Directive) (c r : String)
    (hf : reg.localFunctions.lookup d.name = some fn)
    (hr : fn (dictSet (d.arguments.getD []) "_chat_id" c) = .ret r) :
    (call_tool reg d.name (d.arguments.getD []) none (some c)).1 =
      dictSet (d.arguments.getD []) "_chat_id" c ∧
    ((call_tool reg d.name (d.arguments.getD []) none (some c)).1).lookup "_chat_id" =
      some c ∧
    recordOf reg (some c) d =
      ⟨d.name, d.callId, dictSet (d.arguments.getD []) "_chat_id" c, r⟩ ∧
    build_tool_results_input [recordOf reg (some c) d] =
      [InputItem.functionCall d.callId d.name
        (json_dumps (dictSet (d.arguments.getD []) "_chat_id" c)),
       InputItem.functionCallOutput d.callId r] ∧
    (∀ hist args, (call_tool reg d.name args (some hist) (some c)).1 =
      dictSet (dictSet args "_conversation_history" hist) "_chat_id" c) := by
  have hfst : ∀ (a2 : List (String × String)) ch ci,
      (call_tool reg d.name a2 ch ci).1 = injectSpecials a2 ch ci :=
    fun a2 ch ci => call_tool_fst _ _ _ _ _ _ hf
  have hdc : dirCall reg (some c) d =
      (dictSet (d.arguments.getD []) "_chat_id" c, .value r) := by
    simp only [dirCall, call_tool, hf, injectSpecials, hr]
  refine ⟨hfst _ none (some c), ?_, ?_, ?_, ?_⟩
  · rw [hfst _ none (some c)]
    exact dictSet_lookup_self _ "_chat_id" c
  · simp [recordOf, hdc]
  · simp only [recordOf, hdc]
    rfl
  · intro hist args
    exact hfst args (some hist) (some c)

/-- C10 witness: with chat id `chat7`, the caller's mapping acquires the
`_chat_id` key, the record stores the mutated mapping, and the echoed
`function_call` entry serialises it; with a history, both keys are
injected. -/
theorem call_tool_mutates_arguments_witness :
    (call_tool regOk "GetServices" [("q", "1")] none (some "chat7")).1 =
      [("q", "1"), ("_chat_id", "chat7")] ∧
    ((call_tool regOk "GetServices" [("q", "1")] none (some "chat7")).1).lookup
      "_chat_id" = some "chat7" ∧
    recordOf regOk (some "chat7") ⟨"GetServices", "c9", some [("q", "1")]⟩ =
      ⟨"GetServices", "c9", [("q", "1"), ("_chat_id", "chat7")], "services"⟩ ∧
    build_tool_results_input
        [recordOf regOk (some "chat7") ⟨"GetServices", "c9", some [("q", "1")]⟩] =
      [InputItem.functionCall "c9" "GetServices"
        "\x7b\"q\": \"1\", \"_chat_id\": \"chat7\"\x7d",
       InputItem.functionCallOutput "c9" "services"] ∧
    (call_tool regOk "GetServices" [] (some "hist") (some "chat7")).1 =
      [("_conversation_history", "hist"), ("_chat_id", "chat7")] := by
  have h := call_tool_mutates_arguments regOk (tool_wrapper toolOkA)
    ⟨"GetServices", "c9", some [("q", "1")]⟩ "chat7" "services" rfl rfl
  exact ⟨h.1, h.2.1, h.2.2.1, h.2.2.2.1, h.2.2.2.2 "hist" []⟩
